import Mathlib

/-!
Shallow embedding of the serd streaming-reader core: the byte source, the
lexical layer of the reader (`reader.h`), the scratch stack used to build
nodes, and the world's blank-node generator and error reporting
(`world.c`).  Machine integers are modelled as `Nat`/`Int` with explicit
wrap-around where it matters; C byte buffers are lists of `Nat` values
below 256; fallible operations return a status alongside their result.
-/

set_option maxRecDepth 10000

namespace Serd

/-- The closed set of status codes (`SerdStatus` in `serd.h`), in the
order given by the specification's error-code list. -/
inductive SerdStatus
  | SUCCESS
  | FAILURE
  | ERR_UNKNOWN
  | ERR_BAD_SYNTAX
  | ERR_BAD_ARG
  | ERR_BAD_IRI
  | ERR_NOT_FOUND
  | ERR_ID_CLASH
  | ERR_BAD_CURIE
  | ERR_INTERNAL
  | ERR_OVERFLOW
  | ERR_BAD_TEXT
  | ERR_NO_DATA
  | ERR_BAD_STREAM
  deriving DecidableEq, Repr

/-- The numeric value of a status code as a C `int` (enumerators are
numbered in declaration order starting at 0, so `SERD_SUCCESS` is 0). -/
def statusToInt : SerdStatus → Int
  | .SUCCESS => 0
  | .FAILURE => 1
  | .ERR_UNKNOWN => 2
  | .ERR_BAD_SYNTAX => 3
  | .ERR_BAD_ARG => 4
  | .ERR_BAD_IRI => 5
  | .ERR_NOT_FOUND => 6
  | .ERR_ID_CLASH => 7
  | .ERR_BAD_CURIE => 8
  | .ERR_INTERNAL => 9
  | .ERR_OVERFLOW => 10
  | .ERR_BAD_TEXT => 11
  | .ERR_NO_DATA => 12
  | .ERR_BAD_STREAM => 13

/-- The stdio `EOF` constant. -/
def EOF : Int := -1

/-- A byte source (`SerdByteSource`), wrapping a caller-supplied read
function and error function over an opaque stream state `σ`.  The read
function returns the bytes of one page (`read(buf, 1, page_size, stream)`);
an empty result models a read that returned zero bytes.  `read_buf` is the
internal buffer and `read_head` the read-head offset into it; `eof` is the
end-of-input flag. -/
structure SerdByteSource (σ : Type) where
  read_func : σ → σ × List Nat
  error_func : σ → Bool
  stream : σ
  read_buf : List Nat
  read_head : Nat
  eof : Bool

/-- Modelled from the spec: refilling the byte-source buffer
(`serd_byte_source_page`, whose source file is not among the sources).
One call to the read function fetches the next page; if it returns no
bytes the source marks EOF and the result is `SERD_ERR_BAD_STREAM` when
the error callback reports non-zero, else `SERD_FAILURE` (soft EOF: no
bytes now but the stream may resume). -/
def serd_byte_source_page {σ : Type} (s : SerdByteSource σ) :
    SerdByteSource σ × SerdStatus :=
  let r := s.read_func s.stream
  if r.2.isEmpty then
    ({ s with stream := r.1, read_buf := [], read_head := 0, eof := true },
     if s.error_func r.1 then .ERR_BAD_STREAM else .FAILURE)
  else
    ({ s with stream := r.1, read_buf := r.2, read_head := 0, eof := false },
     .SUCCESS)

/-- Modelled from the spec: advancing the read head
(`serd_byte_source_advance`, whose source file is not among the sources).
The head moves one byte forward and the buffer is refilled when the head
reaches the end of the buffer; on a source already at EOF the refill is
reattempted, which is what lets a soft EOF resume. -/
def serd_byte_source_advance {σ : Type} (s : SerdByteSource σ) :
    SerdByteSource σ × SerdStatus :=
  if s.read_head + 1 < s.read_buf.length then
    ({ s with read_head := s.read_head + 1 }, .SUCCESS)
  else
    serd_byte_source_page s

/-- The reader state visible to the lexical layer of `reader.h`: the byte
source, the recorded status, and (for the sink model used by the tests)
the number of statements emitted so far. -/
structure SerdReader (σ : Type) where
  source : SerdByteSource σ
  status : SerdStatus
  n_statements : Nat

/-- `peek_byte` from `reader.h`: `source->eof ? EOF :
(int)source->read_buf[source->read_head]`. -/
def peek_byte {σ : Type} (r : SerdReader σ) : Int :=
  if r.source.eof then EOF else (r.source.read_buf.getD r.source.read_head 0 : Int)

/-- `eat_byte` from `reader.h`: remember the peeked byte, advance the
source, and if the advance failed store its status in `reader->status`
(`if (st) { reader->status = st; }`); return the peeked byte. -/
def eat_byte {σ : Type} (r : SerdReader σ) : SerdReader σ × Int :=
  let c := peek_byte r
  let a := serd_byte_source_advance r.source
  ({ r with
     source := a.1,
     status := if a.2 ≠ .SUCCESS then a.2 else r.status }, c)

/-- `eat_byte_safe` from `reader.h`: identical to `eat_byte` except for a
debug assertion that the eaten byte equals the expected one. -/
def eat_byte_safe {σ : Type} (r : SerdReader σ) (byte : Int) : SerdReader σ × Int :=
  let _ := byte
  let e := eat_byte r
  (e.1, e.2)

/-- Modelled from the spec: `r_err` (defined in `reader.c`, which is not
among the sources) reports the error through the world's error sink and
returns the status code; it does not touch the byte source. -/
def r_err {σ : Type} (r : SerdReader σ) (st : SerdStatus) : SerdReader σ × Int :=
  (r, statusToInt st)

/-- `eat_byte_check` from `reader.h`: if the peeked byte differs from the
expected one, fail with `SERD_ERR_BAD_SYNTAX` via `r_err` without
consuming anything; otherwise consume it with `eat_byte_safe` and return
it. -/
def eat_byte_check {σ : Type} (r : SerdReader σ) (byte : Int) : SerdReader σ × Int :=
  let c := peek_byte r
  if c ≠ byte then
    r_err r .ERR_BAD_SYNTAX
  else
    eat_byte_safe r byte

/-- `eat_string` from `reader.h`: run `eat_byte_check` for every byte of
the expected string, accumulating `bad |= (bool)eat_byte_check(...)`
(the C cast of the returned `int` to `bool` is `≠ 0`), and return `bad`.
The loop is written as structural recursion over the expected bytes. -/
def eat_string {σ : Type} : SerdReader σ → List Nat → SerdReader σ × Bool
  | r, [] => (r, false)
  | r, b :: bs =>
    let e := eat_byte_check r (b : Int)
    let rest := eat_string e.1 bs
    (rest.1, (e.2 != 0) || rest.2)

/-! ## The scratch stack -/

/-- The header of a `SerdNode` as laid out at the start of a node frame on
the scratch stack: byte count, flags, and node type. -/
structure SerdNodeHdr where
  n_bytes : Nat
  flags : Nat
  node_type : Nat
  deriving DecidableEq, Repr

/-- One slot of the scratch-stack buffer: either a node header or a raw
byte.  (In C the header occupies `sizeof(SerdNode)` bytes; the model
keeps it in a single slot, which preserves the stack's frame structure.) -/
inductive SerdSlot
  | header (h : SerdNodeHdr)
  | byte (b : Nat)
  deriving DecidableEq, Repr

/-- The scratch stack (`SerdStack`): a contiguous growable buffer.  Its
`size` is the length of `buf`. -/
structure SerdStack where
  buf : List SerdSlot
  deriving DecidableEq, Repr

/-- Modelled from the spec: `serd_stack_push(stack, n)` (defined in
`stack.h`, which is not among the sources) appends `n` uninitialized
bytes and returns a pointer to the start of the new region, here the
offset that was the old top of the stack. -/
def serd_stack_push (st : SerdStack) (n : Nat) : SerdStack × Nat :=
  (⟨st.buf ++ List.replicate n (.byte 0)⟩, st.buf.length)

/-- Write one slot of the stack buffer (a `*p = v` store through a
pointer into the buffer). -/
def stackSet (st : SerdStack) (i : Nat) (s : SerdSlot) : SerdStack :=
  ⟨st.buf.set i s⟩

/-- `++node->n_bytes` for the node header at offset `ref`
(`SerdNode* node = (SerdNode*)(reader->stack.buf + ref)`). -/
def bumpNBytes (st : SerdStack) (ref : Nat) : SerdStack :=
  match st.buf.get? ref with
  | some (.header h) =>
    ⟨st.buf.set ref (.header { h with n_bytes := h.n_bytes + 1 })⟩
  | _ => st

/-- Modelled from the spec: the debug invariant `SERD_STACK_ASSERT_TOP`
(defined in `serd_internal.h`, which is not among the sources) checks
that the reference being appended to is the currently open frame: `ref`
holds a node header and everything above it on the stack is plain bytes. -/
def isTopFrame (st : SerdStack) (ref : Nat) : Bool :=
  (match st.buf.get? ref with
   | some (.header _) => true
   | _ => false) &&
  (st.buf.drop (ref + 1)).all fun s =>
    match s with
    | .byte _ => true
    | _ => false

/-- `push_byte` from `reader.h`: push one byte onto the stack, increment
the header's `n_bytes` at `ref`, store the character at `*(s-1)` (the
slot that held the old terminator) and a fresh `'\0'` at `*s` (the newly
pushed slot). -/
def push_byte (st : SerdStack) (ref : Nat) (c : Nat) : SerdStack × SerdStatus :=
  let p := serd_stack_push st 1
  let st2 := bumpNBytes p.1 ref
  let st3 := stackSet st2 (p.2 - 1) (.byte c)
  let st4 := stackSet st3 p.2 (.byte 0)
  (st4, .SUCCESS)

/-- `push_bytes` from `reader.h`: push each byte in order with
`push_byte`. -/
def push_bytes (st : SerdStack) (ref : Nat) (bytes : List Nat) : SerdStack :=
  bytes.foldl (fun acc b => (push_byte acc ref b).1) st

/-! ## The world: blank-node generation and error reporting -/

/-- The world's preallocated blank node (`world->blank_node`): a byte
count and the node's character buffer (`serd_node_buffer` returns a
pointer to it).  The buffer holds `BLANK_CHARS + 1` bytes. -/
structure BlankNode where
  n_bytes : Nat
  buf : List Nat
  deriving DecidableEq, Repr

/-- The world state used by `serd_world_get_blank`: the monotonic counter
(`next_blank_id`, a C `unsigned`) and the blank node. -/
structure SerdWorldBlank where
  next_blank_id : Nat
  blank_node : BlankNode
  deriving DecidableEq, Repr

/-- `BLANK_CHARS` from `world.c`. -/
def BLANK_CHARS : Nat := 11

/-- ASCII decimal representation of `n` (the output of `%u`). -/
def decChars (n : Nat) : List Nat :=
  (Nat.toDigits 10 n).map Char.toNat

/-- The C-library `snprintf(buf, size, ...)` contract: given the full
formatted character sequence, at most `size - 1` characters are written
(followed by a terminating `'\0'`), and the return value is the length
the full output would have had. -/
def snprintfModel (size : Nat) (chars : List Nat) : List Nat × Nat :=
  (chars.take (size - 1), chars.length)

/-- `serd_world_get_blank` from `world.c`:
`memset(buf, 0, BLANK_CHARS + 1)` then
`n_bytes = snprintf(buf, BLANK_CHARS, "b%u", ++next_blank_id)`.
The counter is a C `unsigned`, so the increment wraps modulo 2^32. -/
def serd_world_get_blank (w : SerdWorldBlank) : SerdWorldBlank × BlankNode :=
  let id := (w.next_blank_id + 1) % 4294967296
  let p := snprintfModel BLANK_CHARS (98 :: decChars id)
  let node : BlankNode :=
    { n_bytes := p.2,
      buf := p.1 ++ List.replicate (BLANK_CHARS + 1 - p.1.length) 0 }
  ({ next_blank_id := id, blank_node := node }, node)

/-- Reading a NUL-terminated C string out of a byte buffer: the bytes up
to the first `0` (`strlen` counts exactly these). -/
def cString (bytes : List Nat) : List Nat :=
  bytes.takeWhile (fun b => b != 0)

/-- The byte codes of an ASCII Lean string literal. -/
def strBytes (s : String) : List Nat :=
  s.data.map Char.toNat

/-- The world's initial blank node, `serd_new_blank("b0000000000")` from
`serd_world_new`. -/
def initialBlankNode : BlankNode :=
  { n_bytes := 11, buf := strBytes "b0000000000" ++ [0] }

/-- A cursor attached to an error (`SerdCursor`): the byte string of the
source-name node (`serd_node_get_string(e->cursor->file)`), plus line and
column. -/
structure SerdCursorE where
  file : List Nat
  line : Nat
  col : Nat
  deriving DecidableEq, Repr

/-- An error record (`SerdError`): status, optional cursor, and the byte
string that `fmt`/`args` render to under `vfprintf`. -/
structure SerdError where
  status : SerdStatus
  cursor : Option SerdCursorE
  msg : List Nat
  deriving DecidableEq, Repr

/-- The world state used by `serd_world_error`: whether an error sink is
installed, and its opaque handle. -/
structure SerdWorldErr where
  error_sink : Bool
  error_handle : Nat
  deriving DecidableEq, Repr

/-- Where `serd_world_error` delivered the error: invoked the installed
sink with `(handle, e)`, or printed text to the diagnostic stream. -/
inductive ErrorDelivery
  | sunk (handle : Nat) (e : SerdError)
  | printed (text : List Nat)
  deriving DecidableEq, Repr

/-- `serd_world_error` from `world.c`: if a sink is installed, call it
with the handle and the error; otherwise print `"error: "`, then — only
when a cursor is attached — `"%s:%u:%u: "` with the cursor's file, line
and column, then the formatted message.  In both cases return
`e->status`.  (`58` is `':'` and `32` is a space.) -/
def serd_world_error (w : SerdWorldErr) (e : SerdError) :
    ErrorDelivery × SerdStatus :=
  if w.error_sink then
    (.sunk w.error_handle e, e.status)
  else
    (.printed (strBytes "error: " ++
      (match e.cursor with
       | some c =>
         c.file ++ [58] ++ decChars c.line ++ [58] ++ decChars c.col ++ [58, 32]
       | none => []) ++ e.msg), e.status)

/-- `serd_world_set_error_sink` from `world.c`: store the sink and the
handle. -/
def serd_world_set_error_sink (w : SerdWorldErr) (sink : Bool) (handle : Nat) :
    SerdWorldErr :=
  let _ := w
  { error_sink := sink, error_handle := handle }

/-! ## Chunked reading (`serd_reader_read_chunk`)

The grammar layer and `serd_reader_read_chunk` live in `reader.c`, which
is not among the sources, so the productions needed by the chunked
streaming scenario are modelled from the spec: one top-level production
is a triple — subject, predicate and object, each an IRI in angle
brackets, a `_:`-prefixed blank-node label, or a CURIE name — followed by
`.`, with whitespace and newlines skipped between tokens.  Emitting the
statement is modelled as incrementing the statement count (the test
harness's counting sink). -/

/-- Turtle whitespace bytes: space, tab, carriage return, newline. -/
def isWsByte (c : Int) : Bool :=
  c == 32 || c == 9 || c == 13 || c == 10

/-- ASCII letters and digits (enough for the node names the scenario
uses). -/
def isAlnumByte (c : Int) : Bool :=
  (48 ≤ c && c ≤ 57) || (65 ≤ c && c ≤ 90) || (97 ≤ c && c ≤ 122)

/-- Consume bytes while the predicate holds of the lookahead
(fuel-bounded loop). -/
def eatWhile {σ : Type} (p : Int → Bool) : Nat → SerdReader σ → SerdReader σ
  | 0, r => r
  | fuel + 1, r =>
    if p (peek_byte r) then eatWhile p fuel (eat_byte r).1 else r

/-- Consume bytes up to and including `stop`; `false` when the input ends
first. -/
def eatUntil {σ : Type} (stop : Int) : Nat → SerdReader σ → SerdReader σ × Bool
  | 0, r => (r, false)
  | fuel + 1, r =>
    let c := peek_byte r
    if c == stop then ((eat_byte r).1, true)
    else if c == EOF then (r, false)
    else eatUntil stop fuel (eat_byte r).1

/-- Modelled from the spec: one term of a triple — `<IRI>`, `_:label`
blank node, or a CURIE name. -/
def readTerm {σ : Type} (fuel : Nat) (r : SerdReader σ) : SerdReader σ × Bool :=
  let c := peek_byte r
  if c == 60 then
    eatUntil 62 fuel (eat_byte r).1
  else if c == 95 then
    let r1 := (eat_byte r).1
    if peek_byte r1 == 58 then (eatWhile isAlnumByte fuel (eat_byte r1).1, true)
    else (r1, false)
  else if isAlnumByte c || c == 58 then
    (eatWhile (fun b => isAlnumByte b || b == 58) fuel r, true)
  else (r, false)

/-- Modelled from the spec: one top-level production (a triple terminated
by `.`), emitting its statement by incrementing the statement counter. -/
def read_statement {σ : Type} (fuel : Nat) (r : SerdReader σ) :
    SerdReader σ × SerdStatus :=
  let r0 := eatWhile isWsByte fuel r
  let s := readTerm fuel r0
  if !s.2 then (s.1, .ERR_BAD_SYNTAX) else
  let r1 := eatWhile isWsByte fuel s.1
  let p := readTerm fuel r1
  if !p.2 then (p.1, .ERR_BAD_SYNTAX) else
  let r2 := eatWhile isWsByte fuel p.1
  let o := readTerm fuel r2
  if !o.2 then (o.1, .ERR_BAD_SYNTAX) else
  let r3 := eatWhile isWsByte fuel o.1
  if peek_byte r3 == 46 then
    let r4 := (eat_byte r3).1
    ({ r4 with n_statements := r4.n_statements + 1 }, .SUCCESS)
  else (r3, .ERR_BAD_SYNTAX)

/-- Modelled from the spec: `serd_reader_read_chunk` (defined in
`reader.c`, which is not among the sources).  A source at EOF first
reattempts a refill, which is what lets a soft EOF resume; then, per the
spec's state machine: peek — on EOF return `FAILURE`; on a null byte
consume it and return `FAILURE`; otherwise parse one production. -/
def serd_reader_read_chunk {σ : Type} (fuel : Nat) (r : SerdReader σ) :
    SerdReader σ × SerdStatus :=
  let r' :=
    if r.source.eof then
      { r with source := (serd_byte_source_advance r.source).1 }
    else r
  let c := peek_byte r'
  if c == EOF then (r', .FAILURE)
  else if c == 0 then ((eat_byte r').1, .FAILURE)
  else read_statement fuel r'

/-! ## The socket-like EOF test source (`eof_test_read` from the test
suite) -/

/-- The stream read by `eof_test_read`. -/
def eofTestString : List Nat :=
  strBytes "_:s1 <http://example.org/p> _:o1 .\n_:s2 <http://example.org/p> _:o2 .\n"

/-- `eof_test_read` from `tests/serd_test.c`, at `nmemb = 1` (the reader
is started with page size 1): return zero bytes when the counter is 34 or
35 or past the end of the string, advancing the counter on every call. -/
def eof_test_read (count : Nat) : Nat × List Nat :=
  if count = 34 ∨ count = 35 ∨ count + 1 ≥ eofTestString.length then
    (count + 1, [])
  else
    (count + 1, [eofTestString.getD count 0])

/-- `eof_test_error` from `tests/serd_test.c`: always 0. -/
def eof_test_error (stream : Nat) : Bool :=
  let _ := stream
  false

/-- The byte source bound by `serd_reader_start_stream(reader,
eof_test_read, eof_test_error, &n_reads, NULL, 1)`, before the first
page is read. -/
def eofTestSourceInit : SerdByteSource Nat :=
  { read_func := eof_test_read
    error_func := eof_test_error
    stream := 0
    read_buf := []
    read_head := 0
    eof := false }

/-- The reader state after `start_stream` prepares the source by reading
the first page, with the statement-counting sink at zero. -/
def eofTestReader : SerdReader Nat :=
  { source := (serd_byte_source_page eofTestSourceInit).1
    status := .SUCCESS
    n_statements := 0 }

/-- Four consecutive `read_chunk` calls on the socket-like source: the
list of their results and the final statement count. -/
def eofTestChunkRun : List SerdStatus × Nat :=
  let c1 := serd_reader_read_chunk 100 eofTestReader
  let c2 := serd_reader_read_chunk 100 c1.1
  let c3 := serd_reader_read_chunk 100 c2.1
  let c4 := serd_reader_read_chunk 100 c3.1
  ([c1.2, c2.2, c3.2, c4.2], c4.1.n_statements)

/-- The canonical shape of a scratch stack whose topmost frame is an
in-progress node: arbitrary slots `pre` below the frame, the node header
at offset `pre.length`, the node's string bytes, and the terminating zero
byte on top of the stack. -/
def openStack (pre : List SerdSlot) (h : SerdNodeHdr) (body : List Nat) :
    SerdStack :=
  ⟨pre ++ .header h :: (body.map .byte ++ [.byte 0])⟩

/-! ## List index lemmas -/

theorem setAppendAdd {α : Type} (l1 l2 : List α) (k : Nat) (a : α) :
    (l1 ++ l2).set (l1.length + k) a = l1 ++ l2.set k a := by
  induction l1 with
  | nil => simp
  | cons x t ih => simpa [Nat.succ_add] using ih

theorem getqAppendAdd {α : Type} (l1 l2 : List α) (k : Nat) :
    (l1 ++ l2).get? (l1.length + k) = l2.get? k := by
  induction l1 with
  | nil => simp
  | cons x t ih => simpa [Nat.succ_add] using ih

theorem dropAppendAdd {α : Type} (l1 l2 : List α) (k : Nat) :
    (l1 ++ l2).drop (l1.length + k) = l2.drop k := by
  induction l1 with
  | nil => simp
  | cons x t ih => simpa [Nat.succ_add] using ih

theorem openStackLength (pre : List SerdSlot) (h : SerdNodeHdr)
    (body : List Nat) :
    (openStack pre h body).buf.length = pre.length + (body.length + 2) := by
  simp [openStack]

/-- The slots above an open frame's header are all plain bytes. -/
theorem allBytesBody (body : List Nat) :
    ((body.map SerdSlot.byte ++ [SerdSlot.byte 0]).all fun s =>
      match s with
      | .byte _ => true
      | _ => false) = true := by
  induction body with
  | nil => simp
  | cons b t ih => simpa using ih

/-- An open frame passes the `SERD_STACK_ASSERT_TOP` check. -/
theorem isTopFrameOpen (pre : List SerdSlot) (h : SerdNodeHdr)
    (body : List Nat) :
    isTopFrame (openStack pre h body) pre.length = true := by
  have h1 : (openStack pre h body).buf.get? (pre.length + 0) =
      some (.header h) := by
    simpa [openStack] using
      getqAppendAdd pre (.header h :: (body.map .byte ++ [.byte 0])) 0
  have h2 : (openStack pre h body).buf.drop (pre.length + 1) =
      body.map .byte ++ [.byte 0] := by
    simpa [openStack] using
      dropAppendAdd pre (.header h :: (body.map .byte ++ [.byte 0])) 1
  simp only [isTopFrame]
  rw [show pre.length = pre.length + 0 from rfl] at h1
  simp only [Nat.add_zero] at h1 ⊢
  rw [h1, h2]
  simp [allBytesBody]

/-- Effect of `push_byte` on an open frame: the header's byte count goes
up by one, the pushed byte lands where the old terminator was, and a
fresh terminator is written on top. -/
theorem pushByteSpec (pre : List SerdSlot) (h : SerdNodeHdr)
    (body : List Nat) (c : Nat) :
    push_byte (openStack pre h body) pre.length c =
      (openStack pre { h with n_bytes := h.n_bytes + 1 } (body ++ [c]),
       .SUCCESS) := by
  have e1 : (openStack pre h body).buf ++ List.replicate 1 (SerdSlot.byte 0)
      = pre ++ SerdSlot.header h ::
          (body.map SerdSlot.byte ++ [SerdSlot.byte 0, SerdSlot.byte 0]) := by
    simp [openStack]
  have hlen : (openStack pre h body).buf.length = pre.length + (body.length + 2) :=
    openStackLength pre h body
  have e2 : (pre ++ SerdSlot.header h ::
        (body.map SerdSlot.byte ++ [SerdSlot.byte 0, SerdSlot.byte 0])).get?
      pre.length = some (SerdSlot.header h) := by
    simpa using getqAppendAdd pre
      (SerdSlot.header h :: (body.map SerdSlot.byte ++ [SerdSlot.byte 0, SerdSlot.byte 0])) 0
  simp only [push_byte, serd_stack_push, bumpNBytes, stackSet, e1, hlen, e2]
  have s1 : (pre ++ SerdSlot.header h ::
        (body.map SerdSlot.byte ++ [SerdSlot.byte 0, SerdSlot.byte 0])).set
      pre.length (SerdSlot.header { h with n_bytes := h.n_bytes + 1 })
      = pre ++ SerdSlot.header { h with n_bytes := h.n_bytes + 1 } ::
          (body.map SerdSlot.byte ++ [SerdSlot.byte 0, SerdSlot.byte 0]) := by
    simpa using setAppendAdd pre
      (SerdSlot.header h :: (body.map SerdSlot.byte ++ [SerdSlot.byte 0, SerdSlot.byte 0]))
      0 (SerdSlot.header { h with n_bytes := h.n_bytes + 1 })
  have i1 : pre.length + (body.length + 2) - 1 = pre.length + (body.length + 1) := by
    omega
  have s2 : (body.map SerdSlot.byte ++ [SerdSlot.byte 0, SerdSlot.byte 0]).set
      body.length (SerdSlot.byte c)
      = body.map SerdSlot.byte ++ [SerdSlot.byte c, SerdSlot.byte 0] := by
    simpa using setAppendAdd (body.map SerdSlot.byte)
      [SerdSlot.byte 0, SerdSlot.byte 0] 0 (SerdSlot.byte c)
  have s3 : (body.map SerdSlot.byte ++ [SerdSlot.byte c, SerdSlot.byte 0]).set
      (body.length + 1) (SerdSlot.byte 0)
      = body.map SerdSlot.byte ++ [SerdSlot.byte c, SerdSlot.byte 0] := by
    simpa using setAppendAdd (body.map SerdSlot.byte)
      [SerdSlot.byte c, SerdSlot.byte 0] 1 (SerdSlot.byte 0)
  rw [s1, i1]
  simp only [setAppendAdd]
  simp [openStack, s2, s3]

/-- Effect of `push_bytes` on an open frame: the bytes are appended in
order and the header's byte count goes up by their number. -/
theorem pushBytesSpec (pre : List SerdSlot) (h : SerdNodeHdr)
    (body : List Nat) (bs : List Nat) :
    push_bytes (openStack pre h body) pre.length bs =
      openStack pre { h with n_bytes := h.n_bytes + bs.length } (body ++ bs) := by
  induction bs generalizing h body with
  | nil => simp [push_bytes]
  | cons b t ih =>
    have step : push_bytes (openStack pre h body) pre.length (b :: t)
        = push_bytes (openStack pre { h with n_bytes := h.n_bytes + 1 }
            (body ++ [b])) pre.length t := by
      simp [push_bytes, pushByteSpec pre h body b]
    rw [step, ih]
    simp [Nat.add_assoc, Nat.add_comm 1 t.length]

/-! ## Concrete fixtures used by witnesses and counterexamples -/

/-- A world whose blank counter is one below the first ten-digit id. -/
def worldAtBillion : SerdWorldBlank :=
  { next_blank_id := 999999999, blank_node := initialBlankNode }

/-- A byte source over `σ = Nat` holding the five bytes of `"true "` in
its buffer, whose read function never yields further bytes and whose
error callback always reports zero. -/
def trueKwSource : SerdByteSource Nat :=
  { read_func := fun s => (s, [])
    error_func := fun s => let _ := s; false
    stream := 0
    read_buf := [116, 114, 117, 101, 32]
    read_head := 0
    eof := false }

/-- A fresh reader over `trueKwSource`. -/
def trueKwReader : SerdReader Nat :=
  { source := trueKwSource, status := .SUCCESS, n_statements := 0 }

/-- A source whose reads always return zero bytes, with the error
callback reporting non-zero exactly on the first failed read: the first
failing advance yields `ERR_BAD_STREAM`, later ones `FAILURE`. -/
def failSource : SerdByteSource Nat :=
  { read_func := fun s => (s + 1, [])
    error_func := fun s => s == 1
    stream := 0
    read_buf := [46]
    read_head := 0
    eof := false }

/-- A fresh reader over `failSource`. -/
def failReader : SerdReader Nat :=
  { source := failSource, status := .SUCCESS, n_statements := 0 }

/-- A small open frame: a node holding `"ab"` as the only frame on the
stack. -/
def stackEx : SerdStack :=
  openStack [] { n_bytes := 2, flags := 0, node_type := 0 } [97, 98]

/-- A world with no error sink installed. -/
def errNoSinkWorld : SerdWorldErr :=
  { error_sink := false, error_handle := 0 }

/-- An error with a cursor attached (`test.ttl:4:2`). -/
def errWithCursor : SerdError :=
  { status := .ERR_BAD_SYNTAX
    cursor := some { file := strBytes "test.ttl", line := 4, col := 2 }
    msg := strBytes "bad" }

/-! ## Helper lemmas on the lexical layer -/

/-- On a mismatch `eat_byte_check` returns the reader unchanged with the
`BAD_SYNTAX` status value. -/
theorem eatByteCheckMiss {σ : Type} (r : SerdReader σ) (b : Int)
    (h : peek_byte r ≠ b) :
    eat_byte_check r b = (r, statusToInt .ERR_BAD_SYNTAX) := by
  simp [eat_byte_check, r_err, h]

/-- On a match `eat_byte_check` behaves as `eat_byte` and returns the
matched byte. -/
theorem eatByteCheckHit {σ : Type} (r : SerdReader σ) (b : Int)
    (h : peek_byte r = b) :
    eat_byte_check r b = eat_byte r ∧ (eat_byte_check r b).2 = b := by
  constructor
  · simp [eat_byte_check, eat_byte_safe, h]
  · simp [eat_byte_check, eat_byte_safe, eat_byte, h]

/-! ## Claims -/

/-- C1: the claim says `serd_world_get_blank` on a world with counter `k`
yields exactly `b` followed by the decimal representation of `k+1` for
counter values up to ten digits.  The spec (11 bytes excluding the
terminator, and a buffer of `BLANK_CHARS + 1` bytes that `memset` wipes)
clearly intends that, but the `snprintf` call is given size
`BLANK_CHARS = 11` and therefore writes at most 10 characters: at the
first ten-digit id (counter 999999999, id 1000000000) the stored string
is the truncated `"b100000000"`, not `"b1000000000"`. -/
theorem get_blank_truncates_ten_digit_ids :
    cString (serd_world_get_blank worldAtBillion).2.buf = strBytes "b100000000"
      ∧ cString (serd_world_get_blank worldAtBillion).2.buf ≠
          strBytes "b1000000000" := by
  decide

/-- C2: the invariant `n_bytes = strlen(string)` fails for the blank node
produced at the first ten-digit id: `snprintf` returns the untruncated
length 11, which `serd_world_get_blank` stores as `n_bytes`, while the
NUL-terminated string left in the buffer has only 10 bytes. -/
theorem get_blank_n_bytes_strlen_mismatch :
    (serd_world_get_blank worldAtBillion).2.n_bytes = 11
      ∧ (cString (serd_world_get_blank worldAtBillion).2.buf).length = 10 := by
  decide

/-- C3 counterexample: the first `eat_byte` on `failReader` records the
fatal `ERR_BAD_STREAM`, and the next `eat_byte`, whose advance fails with
the different status `FAILURE`, replaces it — the first recorded fatal
status is not latched. -/
theorem eat_byte_overwrites_recorded_status :
    (eat_byte failReader).1.status = .ERR_BAD_STREAM
      ∧ (eat_byte (eat_byte failReader).1).1.status = .FAILURE
      ∧ SerdStatus.FAILURE ≠ SerdStatus.ERR_BAD_STREAM := by
  decide

/-- C3 (amended): `eat_byte` stores the status of every failing
byte-source advance into `reader->status`, overwriting whatever status —
fatal or not — was recorded before, so the recorded status is the most
recent failure rather than a latched first one; a successful advance
leaves the recorded status unchanged. -/
theorem eat_byte_records_latest_status {σ : Type} (r : SerdReader σ) :
    ((serd_byte_source_advance r.source).2 ≠ .SUCCESS →
      (eat_byte r).1.status = (serd_byte_source_advance r.source).2)
    ∧ ((serd_byte_source_advance r.source).2 = .SUCCESS →
      (eat_byte r).1.status = r.status) := by
  constructor <;> intro h <;> simp [eat_byte, h]

/-- Witness for the amended C3 theorem at a concrete failing source. -/
theorem eat_byte_records_latest_status_witness :
    (serd_byte_source_advance failReader.source).2 ≠ SerdStatus.SUCCESS
      ∧ (eat_byte failReader).1.status =
          (serd_byte_source_advance failReader.source).2 :=
  ⟨by decide, (eat_byte_records_latest_status failReader).1 (by decide)⟩

/-- C4: reading the two-statement stream byte-at-a-time from the
socket-like `eof_test_read` source (whose read returns zero bytes at
counts 34 and 35 and past the end) yields the `read_chunk` result
sequence SUCCESS, FAILURE, SUCCESS, FAILURE with exactly two emitted
statements: the soft EOF comes back as `FAILURE` and the next call
succeeds again without losing parser state. -/
theorem read_chunk_soft_eof_resumes :
    eofTestChunkRun = ([.SUCCESS, .FAILURE, .SUCCESS, .FAILURE], 2) := by
  decide

/-- C5: when the next byte differs from the expected one,
`eat_byte_check` fails with `SERD_ERR_BAD_SYNTAX` and leaves the reader —
in particular its byte source — untouched; when it matches,
`eat_byte_check` behaves as `eat_byte` (consuming the byte) and returns
it. -/
theorem eat_byte_check_spec {σ : Type} (r : SerdReader σ) (b : Int)
    (_hb0 : 0 ≤ b) (_hb1 : b < 256) :
    (peek_byte r ≠ b → eat_byte_check r b = (r, statusToInt .ERR_BAD_SYNTAX))
    ∧ (peek_byte r = b →
        eat_byte_check r b = eat_byte r ∧ (eat_byte_check r b).2 = b) := by
  exact ⟨eatByteCheckMiss r b, eatByteCheckHit r b⟩

/-- Witness for C5 at a concrete reader: a mismatching expected byte is
rejected without consumption, a matching one is eaten. -/
theorem eat_byte_check_spec_witness :
    ((0 : Int) ≤ 47 ∧ (47 : Int) < 256 ∧ peek_byte trueKwReader ≠ 47
      ∧ eat_byte_check trueKwReader 47 =
          (trueKwReader, statusToInt .ERR_BAD_SYNTAX))
    ∧ ((0 : Int) ≤ 116 ∧ (116 : Int) < 256 ∧ peek_byte trueKwReader = 116
      ∧ eat_byte_check trueKwReader 116 = eat_byte trueKwReader) :=
  ⟨⟨by decide, by decide, by decide,
    (eat_byte_check_spec trueKwReader 47 (by decide) (by decide)).1 (by decide)⟩,
   ⟨by decide, by decide, by decide,
    ((eat_byte_check_spec trueKwReader 116 (by decide) (by decide)).2
      (by decide)).1⟩⟩

/-- C6: `peek_byte` returns `EOF` exactly when the source is at end of
input, and otherwise the next buffered byte read as an unsigned value —
a value in 0..255, never a negative non-EOF value. -/
theorem peek_byte_spec {σ : Type} (r : SerdReader σ)
    (hbytes : ∀ b ∈ r.source.read_buf, b < 256)
    (hhead : r.source.eof = false →
      r.source.read_head < r.source.read_buf.length) :
    (peek_byte r = EOF ↔ r.source.eof = true)
    ∧ (r.source.eof = false →
        peek_byte r = (r.source.read_buf.getD r.source.read_head 0 : Int)
        ∧ 0 ≤ peek_byte r ∧ peek_byte r < 256) := by
  cases he : r.source.eof
  · have hlt := hhead he
    have hmem : r.source.read_buf.getD r.source.read_head 0 ∈
        r.source.read_buf := by
      rw [List.getD_eq_get?, List.get?_eq_get hlt]
      exact List.get_mem _ _ _
    have hb := hbytes _ hmem
    constructor
    · constructor
      · intro hpk
        exfalso
        have hge : (0 : Int) ≤ peek_byte r := by
          simp [peek_byte, he]
        rw [hpk] at hge
        norm_num [EOF] at hge
      · intro hcontra
        exact absurd hcontra (by simp [he])
    · intro _
      refine ⟨by simp [peek_byte, he], by simp [peek_byte, he], ?_⟩
      simp only [peek_byte, he, if_false, Bool.false_eq_true]
      exact_mod_cast hb
  · constructor
    · simp [peek_byte, he, EOF]
    · intro hcontra
      simp [he] at hcontra

/-- Witness for C6 at a concrete buffered source. -/
theorem peek_byte_spec_witness :
    (∀ b ∈ trueKwReader.source.read_buf, b < 256)
    ∧ (peek_byte trueKwReader = EOF ↔ trueKwReader.source.eof = true)
    ∧ (trueKwReader.source.eof = false →
        0 ≤ peek_byte trueKwReader ∧ peek_byte trueKwReader < 256) :=
  ⟨by decide,
   (peek_byte_spec trueKwReader (by decide) (by decide)).1,
   fun h => ⟨((peek_byte_spec trueKwReader (by decide) (by decide)).2 h).2.1,
             ((peek_byte_spec trueKwReader (by decide) (by decide)).2 h).2.2⟩⟩

/-- C7: `serd_world_error` returns the error's own status code; with a
sink installed the error is routed to the sink; with none it is printed
to the diagnostic stream, carrying the `file:line:col:` prefix exactly
when a cursor is attached to the error. -/
theorem serd_world_error_spec (w : SerdWorldErr) (e : SerdError) :
    (serd_world_error w e).2 = e.status
    ∧ (w.error_sink = true →
        (serd_world_error w e).1 = .sunk w.error_handle e)
    ∧ (w.error_sink = false →
        (∀ c, e.cursor = some c →
          (serd_world_error w e).1 = .printed (strBytes "error: " ++
            (c.file ++ [58] ++ decChars c.line ++ [58] ++ decChars c.col ++
              [58, 32]) ++ e.msg))
        ∧ (e.cursor = none →
          (serd_world_error w e).1 = .printed (strBytes "error: " ++ e.msg))) := by
  refine ⟨?_, ?_, ?_⟩
  · by_cases hs : w.error_sink <;> simp [serd_world_error, hs]
  · intro hs
    simp [serd_world_error, hs]
  · intro hs
    constructor
    · intro c hc
      simp [serd_world_error, hs, hc]
    · intro hc
      simp [serd_world_error, hs, hc]

/-- Witness for C7: no sink installed and a cursor attached — the printed
text carries the `test.ttl:4:2:` prefix and the returned status is the
error's. -/
theorem serd_world_error_spec_witness :
    (serd_world_error errNoSinkWorld errWithCursor).2 = errWithCursor.status
    ∧ (serd_world_error errNoSinkWorld errWithCursor).1 =
        .printed (strBytes "error: " ++
          (strBytes "test.ttl" ++ [58] ++ decChars 4 ++ [58] ++ decChars 2 ++
            [58, 32]) ++ strBytes "bad") :=
  ⟨(serd_world_error_spec errNoSinkWorld errWithCursor).1,
   by
    have h := ((serd_world_error_spec errNoSinkWorld errWithCursor).2.2
      (by decide)).1
      { file := strBytes "test.ttl", line := 4, col := 2 } (by decide)
    simpa using h⟩

/-- C8: on a stack whose topmost frame is the in-progress node at `ref`,
the `SERD_STACK_ASSERT_TOP` check passes; `push_byte` appends exactly the
one byte to that node and increments the header's `n_bytes` by exactly
one, leaving everything below `ref` untouched; the check passes again
after the append; and `push_bytes` appends the given bytes in order,
growing `n_bytes` by exactly their number. -/
theorem push_extends_top_frame (pre : List SerdSlot) (h : SerdNodeHdr)
    (body : List Nat) (c : Nat) (bs : List Nat) (st : SerdStack) (ref : Nat)
    (hst : st = openStack pre h body) (href : ref = pre.length) :
    isTopFrame st ref = true
    ∧ push_byte st ref c =
        (openStack pre { h with n_bytes := h.n_bytes + 1 } (body ++ [c]),
         .SUCCESS)
    ∧ isTopFrame (push_byte st ref c).1 ref = true
    ∧ push_bytes st ref bs =
        openStack pre { h with n_bytes := h.n_bytes + bs.length } (body ++ bs) := by
  subst hst href
  refine ⟨isTopFrameOpen pre h body, pushByteSpec pre h body c, ?_,
    pushBytesSpec pre h body bs⟩
  rw [pushByteSpec pre h body c]
  exact isTopFrameOpen pre _ _

/-- Witness for C8 on a concrete two-byte node frame. -/
theorem push_extends_top_frame_witness :
    stackEx = openStack [] { n_bytes := 2, flags := 0, node_type := 0 } [97, 98]
    ∧ isTopFrame stackEx 0 = true
    ∧ push_byte stackEx 0 99 =
        (openStack [] { n_bytes := 3, flags := 0, node_type := 0 } [97, 98, 99],
         .SUCCESS)
    ∧ push_bytes stackEx 0 [99, 100] =
        openStack [] { n_bytes := 4, flags := 0, node_type := 0 } [97, 98, 99, 100] := by
  have h := push_extends_top_frame []
    { n_bytes := 2, flags := 0, node_type := 0 } [97, 98] 99 [99, 100]
    stackEx 0 rfl rfl
  exact ⟨rfl, h.1, h.2.1, h.2.2.2⟩

/-- C9 counterexample: `eat_string` over the keyword `"true"` with the
matching input buffered — all four byte checks succeed (all four bytes
are consumed and no error status is recorded) — yet it returns `true`
rather than the `false` the claim requires, because a successful
`eat_byte_check` returns the matched byte and the C cast to `bool` makes
any nonzero byte count as `bad`. -/
theorem eat_string_true_on_full_match :
    (eat_string trueKwReader [116, 114, 117, 101]).2 = true
      ∧ (eat_string trueKwReader [116, 114, 117, 101]).1.source.read_head = 4
      ∧ (eat_string trueKwReader [116, 114, 117, 101]).1.status =
          .SUCCESS := by
  decide

/-- C9 (amended): `eat_string` checks all `n` bytes without
short-circuiting, but it returns `false` exactly when every
`eat_byte_check` call returned zero; since a successful check returns the
matched byte itself, for any expected string of nonzero bytes the result
is `false` only when the string is empty — a full match also yields
`true`.  On a mismatch the offending input byte is not consumed, so every
remaining expected byte is compared against that same unconsumed byte: in
particular, when the lookahead differs from every expected byte the
reader is left completely unchanged. -/
theorem eat_string_spec {σ : Type} (r : SerdReader σ) (bs : List Nat)
    (h : ∀ b ∈ bs, 0 < b ∧ b < 256) :
    ((eat_string r bs).2 = false ↔ bs = [])
    ∧ ((∀ b ∈ bs, peek_byte r ≠ (b : Int)) → (eat_string r bs).1 = r) := by
  induction bs generalizing r with
  | nil => simp [eat_string]
  | cons b t ih =>
    have hb := h b (by simp)
    have ht : ∀ x ∈ t, 0 < x ∧ x < 256 := fun x hx => h x (by simp [hx])
    constructor
    · have hne : (eat_byte_check r (b : Int)).2 ≠ 0 := by
        by_cases hpk : peek_byte r = (b : Int)
        · have hv : (eat_byte_check r (b : Int)).2 = (b : Int) :=
            (eatByteCheckHit r b hpk).2
          rw [hv]
          exact_mod_cast hb.1.ne' 
        · have hv := eatByteCheckMiss r b hpk
          rw [hv]
          simp [statusToInt]
      simp [eat_string, hne]
    · intro hall
      have hpk : peek_byte r ≠ (b : Int) := hall b (by simp)
      have hv := eatByteCheckMiss r b hpk
      simp only [eat_string, hv]
      exact (ih r ht).2 fun x hx => hall x (by simp [hx])

/-- Witness for the amended C9 theorem: an expected byte that differs
from the lookahead leaves the reader unchanged and the result is not
`false`. -/
theorem eat_string_spec_witness :
    (∀ b ∈ [200], 0 < b ∧ b < 256)
    ∧ ((eat_string trueKwReader [200]).2 = false ↔ ([200] : List Nat) = [])
    ∧ (eat_string trueKwReader [200]).1 = trueKwReader :=
  ⟨by decide,
   (eat_string_spec trueKwReader [200] (by decide)).1,
   (eat_string_spec trueKwReader [200] (by decide)).2 (by decide)⟩

/-- C10: after `push_byte` on the topmost node frame the node's byte
string on the stack remains NUL-terminated: the appended byte overwrites
the slot at the previous terminator position (the old top of the stack)
and a fresh zero byte sits at the new top, so the slots above the header
are exactly the extended body followed by a terminator. -/
theorem push_byte_keeps_terminator (pre : List SerdSlot) (h : SerdNodeHdr)
    (body : List Nat) (c : Nat) (st : SerdStack) (ref : Nat)
    (hst : st = openStack pre h body) (href : ref = pre.length) :
    (push_byte st ref c).1.buf.length = st.buf.length + 1
    ∧ (push_byte st ref c).1.buf.get? (st.buf.length - 1) = some (.byte c)
    ∧ (push_byte st ref c).1.buf.get?
        ((push_byte st ref c).1.buf.length - 1) = some (.byte 0)
    ∧ (push_byte st ref c).1.buf.drop (ref + 1) =
        (body ++ [c]).map .byte ++ [.byte 0] := by
  subst hst href
  have hp := pushByteSpec pre h body c
  have hlen0 := openStackLength pre h body
  have hlen1 := openStackLength pre
    { h with n_bytes := h.n_bytes + 1 } (body ++ [c])
  rw [hp]
  refine ⟨?_, ?_, ?_, ?_⟩
  · rw [hlen0, hlen1]
    simp
    omega
  · rw [hlen0]
    have i1 : pre.length + (body.length + 2) - 1 =
        pre.length + (body.length + 1) := by omega
    rw [i1]
    have g1 : (openStack pre { h with n_bytes := h.n_bytes + 1 }
        (body ++ [c])).buf.get? (pre.length + (body.length + 1)) =
        ((SerdSlot.header { h with n_bytes := h.n_bytes + 1 }) ::
          ((body ++ [c]).map SerdSlot.byte ++ [SerdSlot.byte 0])).get?
          (body.length + 1) :=
      getqAppendAdd pre _ (body.length + 1)
    rw [g1]
    have g2 : ((body ++ [c]).map SerdSlot.byte ++ [SerdSlot.byte 0]).get?
        body.length = some (SerdSlot.byte c) := by
      have := getqAppendAdd (body.map SerdSlot.byte)
        [SerdSlot.byte c, SerdSlot.byte 0] 0
      simpa [List.map_append] using this
    simpa using g2
  · rw [hlen1]
    have i2 : pre.length + ((body ++ [c]).length + 2) - 1 =
        pre.length + ((body.length + 1) + 1) := by simp
    rw [i2]
    have g1 : (openStack pre { h with n_bytes := h.n_bytes + 1 }
        (body ++ [c])).buf.get? (pre.length + ((body.length + 1) + 1)) =
        ((SerdSlot.header { h with n_bytes := h.n_bytes + 1 }) ::
          ((body ++ [c]).map SerdSlot.byte ++ [SerdSlot.byte 0])).get?
          ((body.length + 1) + 1) :=
      getqAppendAdd pre _ ((body.length + 1) + 1)
    rw [g1]
    have g2 : ((body ++ [c]).map SerdSlot.byte ++ [SerdSlot.byte 0]).get?
        (body.length + 1) = some (SerdSlot.byte 0) := by
      have := getqAppendAdd ((body ++ [c]).map SerdSlot.byte)
        [SerdSlot.byte 0] 0
      simpa [List.map_append] using this
    simpa using g2
  · have g1 : (openStack pre { h with n_bytes := h.n_bytes + 1 }
        (body ++ [c])).buf.drop (pre.length + 1) =
        ((SerdSlot.header { h with n_bytes := h.n_bytes + 1 }) ::
          ((body ++ [c]).map SerdSlot.byte ++ [SerdSlot.byte 0])).drop 1 :=
      dropAppendAdd pre _ 1
    rw [g1]
    simp

/-- Witness for C10 on a concrete two-byte node frame. -/
theorem push_byte_keeps_terminator_witness :
    (push_byte stackEx 0 99).1.buf.length = stackEx.buf.length + 1
    ∧ (push_byte stackEx 0 99).1.buf.get? (stackEx.buf.length - 1) =
        some (.byte 99)
    ∧ (push_byte stackEx 0 99).1.buf.get?
        ((push_byte stackEx 0 99).1.buf.length - 1) = some (.byte 0) := by
  have h := push_byte_keeps_terminator []
    { n_bytes := 2, flags := 0, node_type := 0 } [97, 98] 99 stackEx 0 rfl rfl
  exact ⟨h.1, h.2.1, h.2.2.1⟩

end Serd
